import Mathlib

/-!
Shallow embedding of the console snake game (src/c/game1.cpp).

The globals `width`, `height`, `snake`, `food`, `score`, `dir`, `gameOver`
are gathered into one `GameState` record.  The `rand()` stream consumed by
`placeFood` is modelled by an explicit list of natural-number pairs
(`rand() % width`, `rand() % height` are applied inside the function, as in
the source); the unbounded `while (true)` rejection loop is modelled by
recursion on that list, an empty or exhausted list standing for a run of
samples after which the loop has still not terminated, so a result of
`none` for every finite sample list models divergence.
-/

namespace Snake

/-- A grid cell, `pair<int,int>` in the source. -/
abbrev Cell := Int × Int

/-- `enum Direction { STOP = 0, LEFT, RIGHT, UP, DOWN }`. -/
inductive Direction where
  | stop
  | left
  | right
  | up
  | down
deriving DecidableEq

/-- The global mutable state of the game, gathered into one record:
`width`, `height`, `snake` (front is head), `food`, `score`, `dir`,
`gameOver`. -/
structure GameState where
  width : Nat
  height : Nat
  snake : List Cell
  food : Cell
  score : Nat
  dir : Direction
  gameOver : Bool
deriving DecidableEq

/-- The occupancy test `for (auto &s : snake) if (s.first == fx && s.second == fy)`
from `placeFood` and the self-collision loop of `logic`. -/
def cellOnSnake (snake : List Cell) (c : Cell) : Bool :=
  snake.any fun s => s.1 == c.1 && s.2 == c.2

/-- `placeFood` from the source: repeatedly draw `fx = rand() % width`,
`fy = rand() % height` and accept the first cell not on the snake.  The
random stream is the explicit list `rands`; `none` means the loop has not
terminated after consuming the whole list. -/
def placeFoodList (w h : Nat) (snake : List Cell) : List (Nat × Nat) → Option Cell
  | [] => none
  | r :: rest =>
    let fx : Int := (r.1 % w : Nat)
    let fy : Int := (r.2 % h : Nat)
    if cellOnSnake snake (fx, fy) then placeFoodList w h snake rest
    else some (fx, fy)

/-- `initGame` from the source: three-segment snake at the centre heading
right, score 0, food placed by `placeFood`, `gameOver = false`.  `none`
models `placeFood` failing to terminate on the given sample list. -/
def initGame (w h : Nat) (rands : List (Nat × Nat)) : Option GameState :=
  let sx : Int := ((w / 2 : Nat) : Int)
  let sy : Int := ((h / 2 : Nat) : Int)
  let snake : List Cell := [(sx, sy), (sx - 1, sy), (sx - 2, sy)]
  match placeFoodList w h snake rands with
  | none => none
  | some f =>
    some { width := w, height := h, snake := snake, food := f,
           score := 0, dir := Direction.right, gameOver := false }

/-- The `switch (dir)` in `logic`: the offset added to the head.  The
`default: break` case for `STOP` gives `(0, 0)`. -/
def unitOffset : Direction → Int × Int
  | Direction.left => (-1, 0)
  | Direction.right => (1, 0)
  | Direction.up => (0, -1)
  | Direction.down => (0, 1)
  | Direction.stop => (0, 0)

/-- The candidate new head computed at the top of `logic`. -/
def newHead (st : GameState) : Cell :=
  (st.snake.headI.1 + (unitOffset st.dir).1,
   st.snake.headI.2 + (unitOffset st.dir).2)

/-- The wall test `hx < 0 || hx >= width || hy < 0 || hy >= height`. -/
def wallHit (w h : Nat) (c : Cell) : Prop :=
  c.1 < 0 ∨ (w : Int) ≤ c.1 ∨ c.2 < 0 ∨ (h : Int) ≤ c.2

instance (w h : Nat) (c : Cell) : Decidable (wallHit w h c) := by
  unfold wallHit
  infer_instance

/-- `logic` from the source: compute the new head from the current
direction; on wall or self collision set `gameOver`; otherwise push the new
head, and either score and respawn the food (on a food match, over the
post-push snake) or pop the tail.  `none` models `placeFood` failing to
terminate on the given sample list. -/
def logic (rands : List (Nat × Nat)) (st : GameState) : Option GameState :=
  let nh := newHead st
  if wallHit st.width st.height nh then
    some { st with gameOver := true }
  else if cellOnSnake st.snake nh then
    some { st with gameOver := true }
  else if nh = st.food then
    match placeFoodList st.width st.height (nh :: st.snake) rands with
    | none => none
    | some f =>
      some { st with snake := nh :: st.snake, score := st.score + 10, food := f }
  else
    some { st with snake := (nh :: st.snake).dropLast }

/-- The direction/quit update performed by `input` on the Unix build: the
pending key buffer is the list `buf` (`kbhit_nonblocking` tests
non-emptiness, `getch_nonblocking` pops).  Escape sequences set the
direction unconditionally; the WASD branch refuses the direct opposite;
`q` quits. -/
def inputDG (d : Direction) (g : Bool) : List Char → Direction × Bool
  | [] => (d, g)
  | c :: rest =>
    if c = '\x00' then (d, g)
    else if c = '\x1b' then
      match rest with
      | c2 :: c3 :: _ =>
        if c2 = '[' then
          if c3 = 'A' then (Direction.up, g)
          else if c3 = 'B' then (Direction.down, g)
          else if c3 = 'C' then (Direction.right, g)
          else if c3 = 'D' then (Direction.left, g)
          else (d, g)
        else (d, g)
      | _ => (d, g)
    else if c = 'w' ∨ c = 'W' then (if d ≠ Direction.down then Direction.up else d, g)
    else if c = 's' ∨ c = 'S' then (if d ≠ Direction.up then Direction.down else d, g)
    else if c = 'a' ∨ c = 'A' then (if d ≠ Direction.right then Direction.left else d, g)
    else if c = 'd' ∨ c = 'D' then (if d ≠ Direction.left then Direction.right else d, g)
    else if c = 'q' ∨ c = 'Q' then (d, true)
    else (d, g)

/-- `input` as a state transformer: only `dir` and `gameOver` change. -/
def inputUpd (buf : List Char) (st : GameState) : GameState :=
  let p := inputDG st.dir st.gameOver buf
  { st with dir := p.1, gameOver := p.2 }

/-- The per-frame delay computed in `main`:
`delay = 120 - min(80, score / 5); if (delay < 40) delay = 40;`. -/
def delay (score : Nat) : Nat :=
  let d := 120 - min 80 (score / 5)
  if d < 40 then 40 else d

/-- The states reachable in one run: `initGame`, then any interleaving of
`input` (which only steers or quits) and `logic` ticks; `logic` runs only
while `!gameOver`, as in the main loop. -/
inductive Reachable : GameState → Prop where
  | init (w h : Nat) (rands : List (Nat × Nat)) (st : GameState) :
      initGame w h rands = some st → Reachable st
  | steer (st : GameState) (buf : List Char) :
      Reachable st → Reachable (inputUpd buf st)
  | tick (st st' : GameState) (rands : List (Nat × Nat)) :
      Reachable st → st.gameOver = false → logic rands st = some st' →
      Reachable st'

/-! ## Concrete states used as witnesses -/

/-- The state produced by `initGame` on the 40×20 grid of the source when
the first random draw is (0, 0). -/
def st0 : GameState :=
  { width := 40, height := 20, snake := [(20, 10), (19, 10), (18, 10)],
    food := (0, 0), score := 0, dir := Direction.right, gameOver := false }

/-- `st0` after one tick (head moves right to (21, 10)). -/
def st1 : GameState :=
  { st0 with snake := [(21, 10), (20, 10), (19, 10)] }

/-- `st0` with the direction forced to `STOP`. -/
def stStop : GameState :=
  { st0 with dir := Direction.stop }

/-- The spec's end-to-end example: 5×5 grid, body [(2,2),(1,2),(0,2)]
heading right, food at (3,2). -/
def stFood : GameState :=
  { width := 5, height := 5, snake := [(2, 2), (1, 2), (0, 2)],
    food := (3, 2), score := 0, dir := Direction.right, gameOver := false }

/-- `stFood` after the food-eating tick with random draw (4, 4). -/
def stFood' : GameState :=
  { stFood with
    snake := [(3, 2), (2, 2), (1, 2), (0, 2)]
    food := (4, 4)
    score := 10 }

/-- The spec's wall example: 5×5 grid, head at (4,2) moving right. -/
def stWall : GameState :=
  { width := 5, height := 5, snake := [(4, 2), (3, 2), (2, 2)],
    food := (0, 0), score := 0, dir := Direction.right, gameOver := false }

/-- A state whose next head lands on its own tail: body
[(2,2),(2,3),(1,3),(1,2)] heading left, so the new head (1,2) is the tail
cell. -/
def stTail : GameState :=
  { width := 5, height := 5, snake := [(2, 2), (2, 3), (1, 3), (1, 2)],
    food := (0, 0), score := 0, dir := Direction.left, gameOver := false }

/-- `stFood` steered down so the next head (2,3) misses the food. -/
def stMiss : GameState :=
  { stFood with dir := Direction.down }

/-- `stMiss` after its tick: the head advances to (2,3), the tail is
dropped. -/
def stMiss' : GameState :=
  { stMiss with snake := [(2, 3), (2, 2), (1, 2)] }

/-! ## Basic lemmas -/

theorem cellOnSnake_true_iff (s : List Cell) (c : Cell) :
    cellOnSnake s c = true ↔ c ∈ s := by
  simp only [cellOnSnake, List.any_eq_true, Bool.and_eq_true, beq_iff_eq]
  constructor
  · rintro ⟨x, hx, h1, h2⟩
    have : x = c := Prod.ext h1 h2
    exact this ▸ hx
  · intro hc
    exact ⟨c, hc, rfl, rfl⟩

theorem cellOnSnake_false_iff (s : List Cell) (c : Cell) :
    cellOnSnake s c = false ↔ c ∉ s := by
  rw [← Bool.not_eq_true, not_iff_not]
  exact cellOnSnake_true_iff s c

theorem placeFoodList_not_on_snake (w h : Nat) (snake : List Cell)
    (rands : List (Nat × Nat)) (c : Cell)
    (hp : placeFoodList w h snake rands = some c) : c ∉ snake := by
  induction rands with
  | nil => simp [placeFoodList] at hp
  | cons r rest ih =>
    rw [placeFoodList] at hp
    by_cases hon : cellOnSnake snake (((r.1 % w : Nat) : Int), ((r.2 % h : Nat) : Int)) = true
    · rw [if_pos hon] at hp
      exact ih hp
    · rw [if_neg hon] at hp
      have hc : c = (((r.1 % w : Nat) : Int), ((r.2 % h : Nat) : Int)) :=
        (Option.some_inj.mp hp).symm
      rw [hc]
      exact (cellOnSnake_false_iff _ _).mp (Bool.not_eq_true _ ▸ hon)

theorem logic_wall_branch (rands : List (Nat × Nat)) (st : GameState)
    (hw : wallHit st.width st.height (newHead st)) :
    logic rands st = some { st with gameOver := true } := by
  simp only [logic]
  rw [if_pos hw]

theorem logic_self_branch (rands : List (Nat × Nat)) (st : GameState)
    (hw : ¬ wallHit st.width st.height (newHead st))
    (hc : cellOnSnake st.snake (newHead st) = true) :
    logic rands st = some { st with gameOver := true } := by
  simp only [logic]
  rw [if_neg hw, if_pos hc]

theorem logic_food_branch (rands : List (Nat × Nat)) (st : GameState) (f : Cell)
    (hw : ¬ wallHit st.width st.height (newHead st))
    (hc : cellOnSnake st.snake (newHead st) = false)
    (hf : newHead st = st.food)
    (hp : placeFoodList st.width st.height (newHead st :: st.snake) rands = some f) :
    logic rands st =
      some { st with snake := newHead st :: st.snake, score := st.score + 10,
                     food := f } := by
  simp only [logic]
  rw [if_neg hw, if_neg (by rw [hc]; exact Bool.false_ne_true), if_pos hf, hp]

theorem logic_food_none_branch (rands : List (Nat × Nat)) (st : GameState)
    (hw : ¬ wallHit st.width st.height (newHead st))
    (hc : cellOnSnake st.snake (newHead st) = false)
    (hf : newHead st = st.food)
    (hp : placeFoodList st.width st.height (newHead st :: st.snake) rands = none) :
    logic rands st = none := by
  simp only [logic]
  rw [if_neg hw, if_neg (by rw [hc]; exact Bool.false_ne_true), if_pos hf, hp]

theorem logic_move_branch (rands : List (Nat × Nat)) (st : GameState)
    (hw : ¬ wallHit st.width st.height (newHead st))
    (hc : cellOnSnake st.snake (newHead st) = false)
    (hf : newHead st ≠ st.food) :
    logic rands st =
      some { st with snake := (newHead st :: st.snake).dropLast } := by
  simp only [logic]
  rw [if_neg hw, if_neg (by rw [hc]; exact Bool.false_ne_true), if_neg hf]

/-- Invariant carried by every reachable state: the snake never
self-overlaps and never shrinks below its creation length 3.  All three
`Reachable` constructors preserve it. -/
theorem reachable_inv (st : GameState) (h : Reachable st) :
    st.snake.Nodup ∧ 3 ≤ st.snake.length := by
  induction h with
  | init w h rands st hinit =>
    simp only [initGame] at hinit
    split at hinit
    · exact absurd hinit (by simp)
    · rw [← Option.some_inj.mp hinit]
      constructor
      · simp only [List.nodup_cons, List.mem_cons, List.mem_singleton,
          List.not_mem_nil, List.nodup_nil, Prod.mk.injEq, not_or, and_true,
          not_false_eq_true]
        omega
      · simp
  | steer st buf _ ih => exact ih
  | tick st st' rands _ hrun hstep ih =>
    by_cases hw : wallHit st.width st.height (newHead st)
    · rw [logic_wall_branch rands st hw] at hstep
      rw [← Option.some_inj.mp hstep]
      exact ih
    · by_cases hc : cellOnSnake st.snake (newHead st) = true
      · rw [logic_self_branch rands st hw hc] at hstep
        rw [← Option.some_inj.mp hstep]
        exact ih
      · have hc' : cellOnSnake st.snake (newHead st) = false :=
          Bool.eq_false_iff.mpr hc
        have hnotmem : newHead st ∉ st.snake := (cellOnSnake_false_iff _ _).mp hc'
        by_cases hf : newHead st = st.food
        · cases hp : placeFoodList st.width st.height (newHead st :: st.snake) rands with
          | none =>
            rw [logic_food_none_branch rands st hw hc' hf hp] at hstep
            exact absurd hstep (by simp)
          | some f =>
            rw [logic_food_branch rands st f hw hc' hf hp] at hstep
            rw [← Option.some_inj.mp hstep]
            refine ⟨List.nodup_cons.mpr ⟨hnotmem, ih.1⟩, ?_⟩
            have := ih.2
            simp only [List.length_cons]
            omega
        · rw [logic_move_branch rands st hw hc' hf] at hstep
          rw [← Option.some_inj.mp hstep]
          constructor
          · exact (List.nodup_cons.mpr ⟨hnotmem, ih.1⟩).sublist
              (List.dropLast_sublist _)
          · have := ih.2
            simp only [List.length_dropLast, List.length_cons]
            omega

/-! ## Claim theorems -/

/-- C1: the food-placement loop does NOT detect a full board.  On a fully
occupied grid (1×1 grid whose single cell (0,0) is on the snake) the
rejection loop of `placeFood` never terminates: for every finite list of
random draws the loop is still running (`none`), so no `BoardFull` outcome
is ever signalled, contradicting the spec's required detection of
free-cell count zero. -/
theorem placeFood_full_board_diverges (rands : List (Nat × Nat)) :
    placeFoodList 1 1 [((0 : Int), (0 : Int))] rands = none := by
  induction rands with
  | nil => rfl
  | cons r rest ih =>
    rw [placeFoodList]
    have hon : cellOnSnake [((0 : Int), (0 : Int))]
        (((r.1 % 1 : Nat) : Int), ((r.2 % 1 : Nat) : Int)) = true := by
      simp [cellOnSnake, Nat.mod_one]
    rw [if_pos hon]
    exact ih

/-- C2: the arrow-key input path reverses the direction.  With current
direction Right, the escape sequence ESC '[' 'D' (left arrow) sets the
direction to Left — the opposite request is honoured, not ignored — while
the WASD path on the same request ('a') keeps Right.  So the no-reversal
rule holds only on the WASD path, refuting the claim for "any input
path". -/
theorem input_arrow_reverses_direction :
    inputDG Direction.right false ['\x1b', '[', 'D'] = (Direction.left, false) ∧
      inputDG Direction.right false ['a'] = (Direction.right, false) := by
  exact ⟨rfl, rfl⟩

/-- C8: the per-frame delay equals
max(minDelay, baseDelay - min(maxReduction, score / speedDivisor)) with
baseDelay = 120, maxReduction = 80, speedDivisor = 5, minDelay = 40, in
integer arithmetic, as a pure function of the score. -/
theorem delay_formula (s : Nat) :
    delay s = max 40 (120 - min 80 (s / 5)) := by
  simp only [delay]
  split <;> omega

/-- C9 (counterexample): a freshly initialized game does not have
direction None: `initGame` on the 40×20 grid with first draw (0,0)
produces direction Right, and Right ≠ None. -/
theorem init_dir_is_right_not_stop :
    (initGame 40 20 [(0, 0)]).map GameState.dir = some Direction.right ∧
      Direction.right ≠ Direction.stop := by
  decide

/-- C9 (amended): every state produced by `initGame` has current direction
Right (the global `dir` is declared `STOP` before `initGame` runs, but
`initGame` overwrites it with `RIGHT` before the first frame). -/
theorem initGame_dir_right (w h : Nat) (rands : List (Nat × Nat))
    (st : GameState) (hinit : initGame w h rands = some st) :
    st.dir = Direction.right := by
  simp only [initGame] at hinit
  split at hinit
  · exact absurd hinit (by simp)
  · rw [← Option.some_inj.mp hinit]

/-- C9 (witness): the amended theorem applied at the concrete init. -/
theorem initGame_dir_right_witness : st0.dir = Direction.right :=
  initGame_dir_right 40 20 [(0, 0)] st0 (by decide)

/-- C3 (counterexample): with direction `STOP` and no pending input the
state does NOT remain Running: a tick of the Running state `stStop` sets
`gameOver` to `true` (the stationary head collides with itself),
contradicting "the state remains Running". -/
theorem stop_tick_not_standing_still :
    (logic [] stStop).map GameState.gameOver = some true ∧
      stStop.gameOver = false := by
  decide

/-- C3 (amended): with direction `STOP` the tick computes a head offset of
(0, 0), but it is not a no-op: the new head equals the current head, which
lies on the body, so the self-collision check fires and the tick sets
`gameOver` to `true`, leaving body, food and score unchanged. -/
theorem stop_tick_self_collision :
    unitOffset Direction.stop = (0, 0) ∧
      ∀ (st : GameState) (rands : List (Nat × Nat)),
        st.snake ≠ [] → st.dir = Direction.stop →
        logic rands st = some { st with gameOver := true } := by
  refine ⟨rfl, ?_⟩
  intro st rands hne hdir
  have hnh : newHead st = st.snake.headI := by
    simp [newHead, hdir, unitOffset]
  by_cases hw : wallHit st.width st.height (newHead st)
  · exact logic_wall_branch rands st hw
  · apply logic_self_branch rands st hw
    rw [hnh, cellOnSnake_true_iff]
    cases hsn : st.snake with
    | nil => exact absurd hsn hne
    | cons a t => exact List.mem_cons_self a t

/-- C3 (witness): the amended theorem applied to the concrete state
`stStop`. -/
theorem stop_tick_self_collision_witness :
    logic [] stStop = some { stStop with gameOver := true } :=
  stop_tick_self_collision.2 stStop [] (by decide) rfl

/-- C6: when the new head is out of bounds, a tick of a Running state sets
`gameOver` and changes nothing else (body, food, score, direction all
unchanged).  No hypothesis about body occupancy is needed: the wall branch
takes effect regardless of the self-collision test, which it strictly
precedes in `logic`. -/
theorem wall_collision_tick (st : GameState) (rands : List (Nat × Nat))
    ( _hrun : st.gameOver = false)
    (hw : wallHit st.width st.height (newHead st)) :
    logic rands st = some { st with gameOver := true } :=
  logic_wall_branch rands st hw

/-- C6 (witness): the 5×5 grid with head (4,2) moving right. -/
theorem wall_collision_tick_witness :
    logic [] stWall = some { stWall with gameOver := true } :=
  wall_collision_tick stWall [] rfl (by decide)

/-- C10: when the new head is in bounds but on the current body (the tail
included), a tick of a Running state sets `gameOver` and leaves body, food
and score unchanged. -/
theorem self_collision_tick (st : GameState) (rands : List (Nat × Nat))
    ( _hrun : st.gameOver = false)
    (hw : ¬ wallHit st.width st.height (newHead st))
    (hc : cellOnSnake st.snake (newHead st) = true) :
    logic rands st = some { st with gameOver := true } :=
  logic_self_branch rands st hw hc

/-- C10 (witness): moving left from (2,2) onto the tail cell (1,2) of
`stTail` game-overs. -/
theorem self_collision_tick_witness :
    logic [] stTail = some { stTail with gameOver := true } :=
  self_collision_tick stTail [] rfl (by decide) (by decide)

/-- C7: a tick whose new head is in bounds, not on the body and not the
food leaves the body length and the score unchanged. -/
theorem tick_no_food_preserves (st st' : GameState) (rands : List (Nat × Nat))
    ( _hrun : st.gameOver = false)
    (hw : ¬ wallHit st.width st.height (newHead st))
    (hc : cellOnSnake st.snake (newHead st) = false)
    (hf : newHead st ≠ st.food)
    (hstep : logic rands st = some st') :
    st'.snake.length = st.snake.length ∧ st'.score = st.score := by
  rw [logic_move_branch rands st hw hc hf] at hstep
  rw [← Option.some_inj.mp hstep]
  constructor
  · simp [List.length_dropLast]
  · rfl

/-- C7 (witness): from `stMiss` (head (2,2) moving down, food elsewhere)
one tick keeps length 3 and score 0. -/
theorem tick_no_food_preserves_witness :
    stMiss'.snake.length = stMiss.snake.length ∧ stMiss'.score = stMiss.score :=
  tick_no_food_preserves stMiss stMiss' [] rfl (by decide) (by decide)
    (by decide) (by decide)

/-- C4: a tick whose new head is in bounds, free and on the food grows the
body by one, adds 10 to the score, and respawns the food off the
post-growth body (the new head included). -/
theorem tick_food_growth (st st' : GameState) (rands : List (Nat × Nat))
    ( _hrun : st.gameOver = false)
    (hw : ¬ wallHit st.width st.height (newHead st))
    (hc : cellOnSnake st.snake (newHead st) = false)
    (hf : newHead st = st.food)
    (hstep : logic rands st = some st') :
    st'.snake.length = st.snake.length + 1 ∧ st'.score = st.score + 10 ∧
      st'.food ∉ st'.snake := by
  cases hp : placeFoodList st.width st.height (newHead st :: st.snake) rands with
  | none =>
    rw [logic_food_none_branch rands st hw hc hf hp] at hstep
    exact absurd hstep (by simp)
  | some f =>
    rw [logic_food_branch rands st f hw hc hf hp] at hstep
    rw [← Option.some_inj.mp hstep]
    refine ⟨by simp, rfl, ?_⟩
    exact placeFoodList_not_on_snake _ _ _ _ _ hp

/-- C4 (witness): the spec's end-to-end example with random draw (4,4). -/
theorem tick_food_growth_witness :
    stFood'.snake.length = stFood.snake.length + 1 ∧
      stFood'.score = stFood.score + 10 ∧ stFood'.food ∉ stFood'.snake :=
  tick_food_growth stFood stFood' [(4, 4)] rfl (by decide) (by decide)
    (by decide) (by decide)

/-- C5: (1) every reachable Running state has pairwise-distinct body
cells; (2) `initGame` creates a body of length at least 3; (3) any tick
from a state with distinct body cells that leaves the lifecycle Running
again yields distinct body cells. -/
theorem running_invariants :
    (∀ st : GameState, Reachable st → st.gameOver = false → st.snake.Nodup) ∧
      (∀ (w h : Nat) (rands : List (Nat × Nat)) (st : GameState),
        initGame w h rands = some st → 3 ≤ st.snake.length) ∧
      (∀ (st st' : GameState) (rands : List (Nat × Nat)),
        st.snake.Nodup → logic rands st = some st' → st'.gameOver = false →
        st'.snake.Nodup) := by
  refine ⟨?_, ?_, ?_⟩
  · intro st h _
    exact (reachable_inv st h).1
  · intro w h rands st hinit
    exact (reachable_inv st (Reachable.init w h rands st hinit)).2
  · intro st st' rands hnd hstep _
    by_cases hw : wallHit st.width st.height (newHead st)
    · rw [logic_wall_branch rands st hw] at hstep
      rw [← Option.some_inj.mp hstep]
      exact hnd
    · by_cases hc : cellOnSnake st.snake (newHead st) = true
      · rw [logic_self_branch rands st hw hc] at hstep
        rw [← Option.some_inj.mp hstep]
        exact hnd
      · have hc' : cellOnSnake st.snake (newHead st) = false :=
          Bool.eq_false_iff.mpr hc
        have hnotmem : newHead st ∉ st.snake := (cellOnSnake_false_iff _ _).mp hc'
        by_cases hf : newHead st = st.food
        · cases hp : placeFoodList st.width st.height (newHead st :: st.snake) rands with
          | none =>
            rw [logic_food_none_branch rands st hw hc' hf hp] at hstep
            exact absurd hstep (by simp)
          | some f =>
            rw [logic_food_branch rands st f hw hc' hf hp] at hstep
            rw [← Option.some_inj.mp hstep]
            exact List.nodup_cons.mpr ⟨hnotmem, hnd⟩
        · rw [logic_move_branch rands st hw hc' hf] at hstep
          rw [← Option.some_inj.mp hstep]
          exact (List.nodup_cons.mpr ⟨hnotmem, hnd⟩).sublist
            (List.dropLast_sublist _)

/-- C5 (witness): the invariants at the concrete init state `st0` and its
first tick `st1`. -/
theorem running_invariants_witness :
    st0.snake.Nodup ∧ 3 ≤ st0.snake.length ∧ st1.snake.Nodup :=
  ⟨running_invariants.1 st0 (Reachable.init 40 20 [(0, 0)] st0 (by decide)) rfl,
   running_invariants.2.1 40 20 [(0, 0)] st0 (by decide),
   running_invariants.2.2 st0 st1 [] (by decide) (by decide) rfl⟩

end Snake
